import Mathlib

/-!
Verification of the Brew point-of-sale billing logic.

The order-assembly and bill-calculation logic lives in the React frontend
(`src/frontend/src/pages/Dashboard.jsx`); numbers are modelled as exact
rationals (ℚ), item quantities as integers (ℤ) since every write to a
quantity is `1` or an integer increment.  The backend handlers (bill
persistence, bill numbering, report aggregation, stock adjustment) are not
part of the examined sources; where a claim depends on them they are
modelled from the specification, as marked on each such definition.
-/

namespace Brew

/-- An order line as assembled client-side in `Dashboard.jsx` (`addToOrder`,
lines 84–89): `{menu_item_id, name, price, quantity}`, price snapshotted at
add-time. -/
structure OrderLine where
  menu_item_id : String
  name : String
  price : ℚ
  quantity : ℤ
deriving DecidableEq, Repr

/-- The slice of a menu item that order assembly reads: `{id, name, price}`
(`Dashboard.jsx` uses `item.id`, `item.name`, `item.price`). -/
structure MenuItem where
  id : String
  name : String
  price : ℚ
deriving DecidableEq, Repr

/-- `addToOrder` from `Dashboard.jsx` lines 76–92: if a line with the same
`menu_item_id` exists, increment its quantity by 1, otherwise append a new
line with quantity 1. -/
def addToOrder (orderItems : List OrderLine) (item : MenuItem) : List OrderLine :=
  if orderItems.any (fun o => decide (o.menu_item_id = item.id)) then
    orderItems.map (fun o =>
      if o.menu_item_id = item.id then { o with quantity := o.quantity + 1 } else o)
  else
    orderItems ++ [⟨item.id, item.name, item.price, 1⟩]

/-- `updateQuantity` from `Dashboard.jsx` lines 94–103: on the matching line
compute `newQty = quantity + delta`; keep the new value only when it is
positive, otherwise return the line unchanged; then filter out non-positive
quantities. -/
def updateQuantity (orderItems : List OrderLine) (itemId : String) (delta : ℤ) :
    List OrderLine :=
  (orderItems.map (fun o =>
    if o.menu_item_id = itemId then
      let newQty := o.quantity + delta
      if 0 < newQty then { o with quantity := newQty } else o
    else o)).filter (fun o => decide (0 < o.quantity))

/-- `removeFromOrder` from `Dashboard.jsx` lines 105–109: drop the line with
the given `menu_item_id`. -/
def removeFromOrder (orderItems : List OrderLine) (itemId : String) : List OrderLine :=
  orderItems.filter (fun o => decide (o.menu_item_id ≠ itemId))

/-- One order-assembly interaction on the Dashboard order list. -/
inductive OrderOp where
  | add (item : MenuItem)
  | update (itemId : String) (delta : ℤ)
  | remove (itemId : String)
  | clear
deriving DecidableEq, Repr

/-- Apply one interaction to the order list; `clear` is `clearOrder`
(`Dashboard.jsx` lines 111–119), which resets the list to `[]`. -/
def applyOp (o : List OrderLine) : OrderOp → List OrderLine
  | .add item => addToOrder o item
  | .update itemId delta => updateQuantity o itemId delta
  | .remove itemId => removeFromOrder o itemId
  | .clear => []

/-- Run a sequence of order-assembly interactions from the initial empty
order (`useState([])`, `Dashboard.jsx` line 30). -/
def runOps (ops : List OrderOp) : List OrderLine :=
  ops.foldl applyOp []

/-- The order-list invariant: at most one line per `menu_item_id`, and every
line has quantity at least 1. -/
def OrderWF (o : List OrderLine) : Prop :=
  o.Pairwise (fun a b => a.menu_item_id ≠ b.menu_item_id) ∧ ∀ l ∈ o, 1 ≤ l.quantity

/-- The subtotal reduce from `Dashboard.jsx` line 121:
`orderItems.reduce((sum, item) => sum + item.price * item.quantity, 0)`. -/
def subtotalOf (orderItems : List OrderLine) : ℚ :=
  orderItems.foldl (fun sum item => sum + item.price * (item.quantity : ℚ)) 0

/-- The five derived monetary fields of a bill. -/
structure BillTotals where
  subtotal : ℚ
  discount_amount : ℚ
  taxable_amount : ℚ
  tax_amount : ℚ
  total : ℚ
deriving DecidableEq, Repr

/-- The Bill Calculator, `Dashboard.jsx` lines 121–125:
`discountAmount = subtotal * (discountPercent / 100)`,
`taxableAmount = subtotal - discountAmount`,
`taxAmount = taxableAmount * (taxPercent / 100)`,
`total = taxableAmount + taxAmount`. -/
def computeBill (orderItems : List OrderLine) (discountPercent taxPercent : ℚ) :
    BillTotals :=
  let subtotal := subtotalOf orderItems
  let discountAmount := subtotal * (discountPercent / 100)
  let taxableAmount := subtotal - discountAmount
  let taxAmount := taxableAmount * (taxPercent / 100)
  let total := taxableAmount + taxAmount
  ⟨subtotal, discountAmount, taxableAmount, taxAmount, total⟩

/-- The percent input handlers of `Dashboard.jsx` (discount at line 431, tax
at line 447) both store `Math.min(100, Math.max(0, Number(v)))`. -/
def clampPercent (v : ℚ) : ℚ :=
  min 100 (max 0 v)

/-- Rounding to 2 decimal places, as applied for display (`toFixed(2)`). -/
def round2 (q : ℚ) : ℚ :=
  (round (q * 100) : ℚ) / 100

/-- Helper: a foldl that adds `f x` for each element equals the initial
accumulator plus the sum of the mapped list. -/
theorem foldl_add_eq_sum (f : OrderLine → ℚ) (l : List OrderLine) (a : ℚ) :
    l.foldl (fun s x => s + f x) a = a + (l.map f).sum := by
  induction l generalizing a with
  | nil => simp
  | cons x xs ih => simp [ih, add_assoc]

/-- Helper: the subtotal reduce equals the sum over all lines of
`unit_price × quantity`. -/
theorem subtotalOf_eq_sum (orderItems : List OrderLine) :
    subtotalOf orderItems = (orderItems.map (fun l => l.price * (l.quantity : ℚ))).sum := by
  simpa using foldl_add_eq_sum (fun l => l.price * (l.quantity : ℚ)) orderItems 0

/-- C1: for every order-line list and percentages, the Bill Calculator's
derived fields satisfy `subtotal = Σ unit_price × quantity`,
`discount_amount = subtotal × discount_percent / 100`,
`tax_amount = (subtotal − discount_amount) × tax_percent / 100`, and
`total = subtotal − discount_amount + tax_amount`. -/
theorem bill_calculator_derived_fields (orderItems : List OrderLine) (d t : ℚ) :
    (computeBill orderItems d t).subtotal
        = (orderItems.map (fun l => l.price * (l.quantity : ℚ))).sum ∧
    (computeBill orderItems d t).discount_amount
        = (computeBill orderItems d t).subtotal * d / 100 ∧
    (computeBill orderItems d t).tax_amount
        = ((computeBill orderItems d t).subtotal
            - (computeBill orderItems d t).discount_amount) * t / 100 ∧
    (computeBill orderItems d t).total
        = (computeBill orderItems d t).subtotal
            - (computeBill orderItems d t).discount_amount
            + (computeBill orderItems d t).tax_amount := by
  refine ⟨subtotalOf_eq_sum orderItems, ?_, ?_, ?_⟩ <;>
    simp [computeBill, mul_div_assoc]

/-- The concrete order of the spec's §8 scenario:
`[{price:3.00, qty:2}, {price:1.50, qty:1}]`. -/
def scenarioItems : List OrderLine :=
  [⟨"i1", "ItemA", 3, 2⟩, ⟨"i2", "ItemB", 3/2, 1⟩]

/-- C4: on items `[{price:3.00,qty:2},{price:1.50,qty:1}]` with discount 10%
and tax 23%, the Bill Calculator yields subtotal 7.50, discount_amount 0.75,
taxable_amount 6.75, tax_amount 1.5525 (1.55 rounded to 2 decimals), and
total 8.3025, which rounds to 8.30. -/
theorem scenario_bill_values :
    (computeBill scenarioItems 10 23).subtotal = 15/2 ∧
    (computeBill scenarioItems 10 23).discount_amount = 3/4 ∧
    (computeBill scenarioItems 10 23).taxable_amount = 27/4 ∧
    (computeBill scenarioItems 10 23).tax_amount = 621/400 ∧
    round2 ((computeBill scenarioItems 10 23).tax_amount) = 31/20 ∧
    (computeBill scenarioItems 10 23).total = 3321/400 ∧
    round2 ((computeBill scenarioItems 10 23).total) = 83/10 := by
  refine ⟨?_, ?_, ?_, ?_, ?_, ?_, ?_⟩ <;>
    norm_num [computeBill, subtotalOf, scenarioItems, round2, round_eq, Int.floor_eq_iff]

/-- C2 (counterexample): the percent input handlers silently clamp
out-of-range values into [0,100] and store the clamped value; they are total
functions with no error path, so 150 becomes 100 and −7 becomes 0 rather
than being rejected. -/
theorem percent_out_of_range_clamped_not_rejected :
    clampPercent 150 = 100 ∧ clampPercent (-7) = 0 := by
  constructor <;> norm_num [clampPercent]

/-- C2 (amended): out-of-range discount/tax percent inputs are silently
clamped into [0,100] — negative values to 0, values above 100 to 100,
in-range values stored unchanged — never rejected with an error. -/
theorem percent_input_clamped (v : ℚ) :
    0 ≤ clampPercent v ∧ clampPercent v ≤ 100 ∧
    (v < 0 → clampPercent v = 0) ∧
    (100 < v → clampPercent v = 100) ∧
    (0 ≤ v → v ≤ 100 → clampPercent v = v) := by
  unfold clampPercent
  refine ⟨le_min (by norm_num) (le_max_left 0 v), min_le_left _ _, ?_, ?_, ?_⟩
  · intro hv
    rw [max_eq_left hv.le, min_eq_right (by norm_num)]
  · intro hv
    rw [min_eq_left (le_max_of_le_right hv.le)]
  · intro h0 h100
    rw [max_eq_right h0, min_eq_right h100]

/-- Witness for C2's amended theorem at −7, 150 and 50. -/
theorem percent_input_clamped_witness :
    clampPercent (-7) = 0 ∧ clampPercent 150 = 100 ∧ clampPercent 50 = 50 :=
  ⟨(percent_input_clamped (-7)).2.2.1 (by norm_num),
   (percent_input_clamped 150).2.2.2.1 (by norm_num),
   (percent_input_clamped 50).2.2.2.2 (by norm_num) (by norm_num)⟩

/-- A persisted Bill (spec §3): the derived monetary fields are frozen at
creation.  Payload-only free-text fields (customer_name, table_number,
tax id, currency code) carry no logic and are omitted; `created_day` is the
calendar day of `created_at`, as a day index. -/
structure Bill where
  bill_number : ℕ
  items : List OrderLine
  discount_percent : ℚ
  tax_percent : ℚ
  subtotal : ℚ
  discount_amount : ℚ
  tax_amount : ℚ
  total : ℚ
  created_day : ℕ
deriving DecidableEq, Repr

/-- The persistence state: the append-only bill store plus the serialized
bill-number counter. -/
structure BillStore where
  bills : List Bill
  counter : ℕ
deriving DecidableEq, Repr

/-- Modelled from the spec: the backend POST /api/bills handler is not in
src/.  Per §3/§4.1/§6 it computes the derived fields once, assigns the next
bill number from a serialized counter, and appends one immutable Bill to the
store. -/
def persistBill (st : BillStore) (orderItems : List OrderLine) (d t : ℚ)
    (day : ℕ) : BillStore × Bill :=
  let b := computeBill orderItems d t
  let n := st.counter + 1
  let bill : Bill :=
    ⟨n, orderItems, d, t, b.subtotal, b.discount_amount, b.tax_amount, b.total, day⟩
  (⟨st.bills ++ [bill], n⟩, bill)

/-- `generateBill` from `Dashboard.jsx` lines 127–147: an empty order is
rejected with an error before any request is made (no write reaches the
store); otherwise the bill is posted and persisted. -/
def generateBill (st : BillStore) (orderItems : List OrderLine) (d t : ℚ)
    (day : ℕ) : BillStore × Except String Bill :=
  if orderItems.length = 0 then
    (st, .error "Add items to generate bill")
  else
    let r := persistBill st orderItems d t day
    (r.1, .ok r.2)

/-- C3: generating a bill from an empty order-line list fails with a
validation error and leaves the bill store (and counter) unchanged — no Bill
is created or persisted. -/
theorem empty_order_rejected_state_unchanged (st : BillStore) (d t : ℚ) (day : ℕ) :
    generateBill st [] d t day = (st, .error "Add items to generate bill") := by
  rfl

/-- Modelled from the spec: bill-number assignment (§4.1/§5) is not in src/;
it is a serialized (atomic) counter — each generation call performs one
atomic fetch-and-increment, returning the new counter state and the assigned
number. -/
def nextBillNumber (counter : ℕ) : ℕ × ℕ :=
  (counter + 1, counter + 1)

/-- Modelled from the spec: a concurrent execution of two bill-generation
calls A and B.  Because the counter operation is atomic/serialized, every
interleaving is equivalent to one of the two serial orders, selected by
`aFirst`.  Returns (number assigned to A, number assigned to B, final
counter). -/
def runTwoConcurrent (counter : ℕ) (aFirst : Bool) : ℕ × ℕ × ℕ :=
  if aFirst then
    let r1 := nextBillNumber counter
    let r2 := nextBillNumber r1.1
    (r1.2, r2.2, r2.1)
  else
    let r1 := nextBillNumber counter
    let r2 := nextBillNumber r1.1
    (r2.2, r1.2, r2.1)

/-- C5: under either interleaving of two concurrent bill-generation calls,
the two assigned bill numbers are distinct, both exceed the prior counter,
and they are the two consecutive successors of the prior counter — the call
that is serialized first receives the smaller number (strictly increasing,
never a duplicate). -/
theorem concurrent_bill_numbers_distinct (c : ℕ) (aFirst : Bool) :
    (runTwoConcurrent c aFirst).1 ≠ (runTwoConcurrent c aFirst).2.1 ∧
    c < (runTwoConcurrent c aFirst).1 ∧
    c < (runTwoConcurrent c aFirst).2.1 ∧
    (runTwoConcurrent c aFirst).2.2 = c + 2 ∧
    (if aFirst then
        (runTwoConcurrent c aFirst).1 = c + 1 ∧ (runTwoConcurrent c aFirst).2.1 = c + 2
      else
        (runTwoConcurrent c aFirst).2.1 = c + 1 ∧ (runTwoConcurrent c aFirst).1 = c + 2) := by
  cases aFirst <;> simp [runTwoConcurrent, nextBillNumber] <;> omega

/-- One row of a report's `top_items` ranking: an item name with its summed
quantity and revenue. -/
structure TopItem where
  name : String
  quantity : ℤ
  revenue : ℚ
deriving DecidableEq, Repr

/-- Modelled from the spec: grouping of order lines by menu item name
(§4.2) — fold each line into the accumulator, adding its quantity and
`unit_price × quantity` revenue to an existing group or opening a new one. -/
def addLineToGroups (acc : List TopItem) (l : OrderLine) : List TopItem :=
  if acc.any (fun g => decide (g.name = l.name)) then
    acc.map (fun g =>
      if g.name = l.name then
        ⟨g.name, g.quantity + l.quantity, g.revenue + l.price * (l.quantity : ℚ)⟩
      else g)
  else
    acc ++ [⟨l.name, l.quantity, l.price * (l.quantity : ℚ)⟩]

/-- Modelled from the spec: `top_items` (§4.2) — group all order lines of
the bill set by item name, sort descending by quantity with ties broken by
name ascending, and return the top N. -/
def topItemsOf (bills : List Bill) (n : ℕ) : List TopItem :=
  let grouped := ((bills.map (·.items)).flatten).foldl addLineToGroups []
  (grouped.mergeSort (fun a b =>
    decide (b.quantity < a.quantity ∨ (a.quantity = b.quantity ∧ a.name ≤ b.name)))).take n

/-- A report's summary statistics (§4.2). -/
structure Report where
  total_bills : ℕ
  total_revenue : ℚ
  total_items_sold : ℤ
  avg_bill_value : ℚ
  top_items : List TopItem
deriving DecidableEq, Repr

/-- Modelled from the spec: the backend Report Aggregator (§4.2) is not in
src/.  Over the bills of the window: `total_bills` is the count,
`total_revenue` the sum of totals, `total_items_sold` the sum of all line
quantities, `avg_bill_value = total_revenue / total_bills` (0 when there are
no bills), and `top_items` the grouped ranking. -/
def aggregate (bills : List Bill) (topN : ℕ) : Report :=
  let totalBills := bills.length
  let totalRevenue := (bills.map (·.total)).sum
  let totalItems := (bills.map (fun b => (b.items.map (·.quantity)).sum)).sum
  let avg := if totalBills = 0 then 0 else totalRevenue / (totalBills : ℚ)
  ⟨totalBills, totalRevenue, totalItems, avg, topItemsOf bills topN⟩

/-- C6: aggregating an empty bill set yields total_bills 0, total_revenue 0,
avg_bill_value 0 (no division by zero is attempted) and an empty top_items
list, for any requested top-N size, without error. -/
theorem aggregate_empty_bill_set (topN : ℕ) :
    aggregate [] topN = ⟨0, 0, 0, 0, []⟩ := by
  simp [aggregate, topItemsOf, List.take_nil]

/-- One row of a range report's `daily_breakdown`. -/
structure DayEntry where
  date : ℕ
  bill_count : ℕ
  revenue : ℚ
deriving DecidableEq, Repr

/-- Modelled from the spec: the range report's `daily_breakdown` (§4.2) is
not in src/ (`SalesReport` only renders it).  Dates are modelled as calendar
day indices; for every day of [startDay, endDay] in order, the bucket holds
the count and summed revenue of the bills created that day, zero-valued when
the day has no bills. -/
def dailyBreakdown (bills : List Bill) (startDay endDay : ℕ) : List DayEntry :=
  (List.range (endDay + 1 - startDay)).map (fun i =>
    let d := startDay + i
    let dayBills := bills.filter (fun b => decide (b.created_day = d))
    ⟨d, dayBills.length, (dayBills.map (·.total)).sum⟩)

/-- C7: for start ≤ end, the daily breakdown has exactly one entry per
calendar day of [start, end] (its length is the number of days and its dates
are exactly start, start+1, …, end in order), each entry carries that day's
bill count and revenue, and a day with no bills appears as an explicit
zero-valued entry rather than being omitted. -/
theorem daily_breakdown_covers_range (bills : List Bill) (s e : ℕ) (h : s ≤ e) :
    (dailyBreakdown bills s e).length = e - s + 1 ∧
    (dailyBreakdown bills s e).map (·.date) = (List.range (e + 1 - s)).map (s + ·) ∧
    (∀ entry ∈ dailyBreakdown bills s e,
      s ≤ entry.date ∧ entry.date ≤ e ∧
      entry.bill_count = (bills.filter (fun b => decide (b.created_day = entry.date))).length ∧
      entry.revenue = ((bills.filter (fun b => decide (b.created_day = entry.date))).map
        (·.total)).sum ∧
      ((∀ b ∈ bills, b.created_day ≠ entry.date) →
        entry.bill_count = 0 ∧ entry.revenue = 0)) ∧
    (∀ d : ℕ, s ≤ d → d ≤ e → ∃ entry ∈ dailyBreakdown bills s e, entry.date = d) := by
  refine ⟨?_, ?_, ?_, ?_⟩
  · simp [dailyBreakdown]
    omega
  · simp [dailyBreakdown]
  · intro entry hmem
    simp only [dailyBreakdown, List.mem_map, List.mem_range] at hmem
    obtain ⟨i, hi, rfl⟩ := hmem
    have hfilt : ∀ b ∈ bills, b.created_day ≠ s + i →
        (decide (b.created_day = s + i)) = false := by
      intro b _ hb
      simpa using hb
    refine ⟨Nat.le_add_right s i, show s + i ≤ e by omega, rfl, rfl, ?_⟩
    intro hnone
    have hnil : bills.filter (fun b => decide (b.created_day = s + i)) = [] := by
      apply List.filter_eq_nil_iff.mpr
      intro b hb
      simpa using hnone b hb
    simp [hnil]
  · intro d hsd hde
    refine ⟨⟨d, (bills.filter (fun b => decide (b.created_day = d))).length,
      ((bills.filter (fun b => decide (b.created_day = d))).map (·.total)).sum⟩, ?_, rfl⟩
    simp only [dailyBreakdown, List.mem_map, List.mem_range]
    have hd : s + (d - s) = d := by omega
    exact ⟨d - s, by omega, by simp only [hd]⟩

/-- Witness for C7 on an explicit bill list and the range [10, 12]. -/
theorem daily_breakdown_covers_range_witness :
    (dailyBreakdown [] 10 12).length = 12 - 10 + 1 ∧
    (dailyBreakdown [] 10 12).map (·.date) = (List.range (12 + 1 - 10)).map (10 + ·) ∧
    (∀ entry ∈ dailyBreakdown [] 10 12,
      10 ≤ entry.date ∧ entry.date ≤ 12 ∧
      entry.bill_count = (([] : List Bill).filter
        (fun b => decide (b.created_day = entry.date))).length ∧
      entry.revenue = ((([] : List Bill).filter
        (fun b => decide (b.created_day = entry.date))).map (·.total)).sum ∧
      ((∀ b ∈ ([] : List Bill), b.created_day ≠ entry.date) →
        entry.bill_count = 0 ∧ entry.revenue = 0)) ∧
    (∀ d : ℕ, 10 ≤ d → d ≤ 12 → ∃ entry ∈ dailyBreakdown [] 10 12, entry.date = d) :=
  daily_breakdown_covers_range [] 10 12 (by decide)

/-- The kind of a stock transaction (`transaction_type` sent by
`Inventory.jsx` `handleAdjustStock`; spec §3/§4.3). -/
inductive StockTxType where
  | restock
  | waste
  | adjustment
deriving DecidableEq, Repr

/-- A StockTransaction ledger entry (spec §3), restricted to the fields the
adjustment logic derives; free-text `notes` and audit metadata carry no
logic and are omitted. -/
structure StockTransaction where
  transaction_type : StockTxType
  quantity : ℤ
  previous_stock : ℤ
  new_stock : ℤ
deriving DecidableEq, Repr

/-- Modelled from the spec: the backend POST /api/inventory/{id}/adjust
handler is not in src/ (`Inventory.jsx` `handleAdjustStock` only posts
`{quantity, transaction_type, notes}`).  Per §4.3: restock adds, waste
subtracts clamped at zero, adjustment sets absolutely; one StockTransaction
recording `previous_stock` and `new_stock` is appended. -/
def applyStockAdjustment (previous_stock : ℤ) (ty : StockTxType) (quantity : ℤ) :
    ℤ × StockTransaction :=
  let newStock :=
    match ty with
    | .restock => previous_stock + quantity
    | .waste => max 0 (previous_stock - quantity)
    | .adjustment => quantity
  (newStock, ⟨ty, quantity, previous_stock, newStock⟩)

/-- C8: a waste adjustment of quantity q on stock p yields
`new_stock = max(0, p − q)` — clamped at zero, never negative — and the
recorded transaction carries `previous_stock = p` and the clamped
`new_stock`; in particular stock 5 with waste 8 gives new_stock 0 with
previous_stock 5 and new_stock 0 recorded. -/
theorem waste_adjustment_clamps_at_zero (p q : ℤ) :
    (applyStockAdjustment p .waste q).1 = max 0 (p - q) ∧
    0 ≤ (applyStockAdjustment p .waste q).1 ∧
    (applyStockAdjustment p .waste q).2.previous_stock = p ∧
    (applyStockAdjustment p .waste q).2.new_stock = max 0 (p - q) ∧
    applyStockAdjustment 5 .waste 8 = (0, ⟨.waste, 8, 5, 0⟩) := by
  refine ⟨rfl, le_max_left 0 (p - q), rfl, rfl, by decide⟩

/-- Helper: the clamped percent is non-negative. -/
theorem clampPercent_nonneg (v : ℚ) : 0 ≤ clampPercent v :=
  le_min (by norm_num) (le_max_left 0 v)

/-- Helper: the clamped percent is at most 100. -/
theorem clampPercent_le_100 (v : ℚ) : clampPercent v ≤ 100 :=
  min_le_left _ _

/-- C9: for every order with non-negative unit prices and quantities, and
any discount/tax inputs (which the Dashboard handlers clamp into [0,100]
before they reach the calculator), the computed bill satisfies
total ≥ taxable_amount ≥ 0 and total ≥ tax_amount. -/
theorem bill_totals_ordering (orderItems : List OrderLine) (d t : ℚ)
    (h : ∀ l ∈ orderItems, 0 ≤ l.price ∧ 0 ≤ l.quantity) :
    (computeBill orderItems (clampPercent d) (clampPercent t)).total
        ≥ (computeBill orderItems (clampPercent d) (clampPercent t)).taxable_amount ∧
    (computeBill orderItems (clampPercent d) (clampPercent t)).taxable_amount ≥ 0 ∧
    (computeBill orderItems (clampPercent d) (clampPercent t)).total
        ≥ (computeBill orderItems (clampPercent d) (clampPercent t)).tax_amount := by
  have hsub : 0 ≤ subtotalOf orderItems := by
    rw [subtotalOf_eq_sum]
    apply List.sum_nonneg
    intro x hx
    simp only [List.mem_map] at hx
    obtain ⟨l, hl, rfl⟩ := hx
    exact mul_nonneg (h l hl).1 (by exact_mod_cast (h l hl).2)
  have hd0 : 0 ≤ clampPercent d := clampPercent_nonneg d
  have hd100 : clampPercent d ≤ 100 := clampPercent_le_100 d
  have ht0 : 0 ≤ clampPercent t := clampPercent_nonneg t
  have htaxable :
      0 ≤ subtotalOf orderItems - subtotalOf orderItems * (clampPercent d / 100) := by
    have hrw : subtotalOf orderItems - subtotalOf orderItems * (clampPercent d / 100)
        = subtotalOf orderItems * ((100 - clampPercent d) / 100) := by ring
    rw [hrw]
    exact mul_nonneg hsub (div_nonneg (by linarith) (by norm_num))
  have htax :
      0 ≤ (subtotalOf orderItems - subtotalOf orderItems * (clampPercent d / 100))
            * (clampPercent t / 100) :=
    mul_nonneg htaxable (div_nonneg ht0 (by norm_num))
  refine ⟨?_, ?_, ?_⟩ <;> simp only [computeBill] <;> linarith

/-- Witness for C9 on a concrete two-line order with raw percents 10, 23. -/
theorem bill_totals_ordering_witness :
    (computeBill [⟨"w1", "W", 2, 3⟩] (clampPercent 10) (clampPercent 23)).total
        ≥ (computeBill [⟨"w1", "W", 2, 3⟩] (clampPercent 10) (clampPercent 23)).taxable_amount ∧
    (computeBill [⟨"w1", "W", 2, 3⟩] (clampPercent 10) (clampPercent 23)).taxable_amount ≥ 0 ∧
    (computeBill [⟨"w1", "W", 2, 3⟩] (clampPercent 10) (clampPercent 23)).total
        ≥ (computeBill [⟨"w1", "W", 2, 3⟩] (clampPercent 10) (clampPercent 23)).tax_amount :=
  bill_totals_ordering [⟨"w1", "W", 2, 3⟩] 10 23 (by decide)

/-- Helper: the incrementing map of `addToOrder` does not change a line's
`menu_item_id`. -/
theorem addToOrder_map_id (item : MenuItem) (x : OrderLine) :
    ((if x.menu_item_id = item.id then { x with quantity := x.quantity + 1 }
      else x) : OrderLine).menu_item_id = x.menu_item_id := by
  by_cases hx : x.menu_item_id = item.id <;> simp [hx]

/-- Helper: the quantity-updating map of `updateQuantity` does not change a
line's `menu_item_id`. -/
theorem updateQuantity_map_id (itemId : String) (delta : ℤ) (x : OrderLine) :
    ((if x.menu_item_id = itemId then
        let newQty := x.quantity + delta
        if 0 < newQty then { x with quantity := newQty } else x
      else x) : OrderLine).menu_item_id = x.menu_item_id := by
  by_cases hx : x.menu_item_id = itemId
  · by_cases hq : 0 < x.quantity + delta <;> simp [hx, hq]
  · simp [hx]

/-- Helper: `addToOrder` preserves the order-list invariant. -/
theorem orderWF_addToOrder {o : List OrderLine} (hwf : OrderWF o) (item : MenuItem) :
    OrderWF (addToOrder o item) := by
  obtain ⟨hpw, hq⟩ := hwf
  unfold addToOrder
  by_cases hex : o.any (fun l => decide (l.menu_item_id = item.id)) = true
  · rw [if_pos hex]
    constructor
    · rw [List.pairwise_map]
      exact hpw.imp (fun hab => by
        rwa [addToOrder_map_id item, addToOrder_map_id item])
    · intro l hl
      rw [List.mem_map] at hl
      obtain ⟨x, hx, rfl⟩ := hl
      by_cases hxi : x.menu_item_id = item.id
      · have := hq x hx
        simp only [if_pos hxi]
        omega
      · simpa [if_neg hxi] using hq x hx
  · rw [if_neg hex]
    have hnone : ∀ l ∈ o, l.menu_item_id ≠ item.id := by
      simp only [List.any_eq_true, decide_eq_true_eq, not_exists, not_and] at hex
      exact fun l hl => hex l hl
    constructor
    · rw [List.pairwise_append]
      refine ⟨hpw, List.pairwise_singleton _ _, ?_⟩
      intro a ha b hb
      rw [List.mem_singleton] at hb
      subst hb
      exact hnone a ha
    · intro l hl
      rw [List.mem_append, List.mem_singleton] at hl
      rcases hl with hl | rfl
      · exact hq l hl
      · exact le_refl 1

/-- Helper: `updateQuantity` preserves the order-list invariant. -/
theorem orderWF_updateQuantity {o : List OrderLine} (hwf : OrderWF o)
    (itemId : String) (delta : ℤ) : OrderWF (updateQuantity o itemId delta) := by
  obtain ⟨hpw, _⟩ := hwf
  unfold updateQuantity
  constructor
  · apply List.Pairwise.filter
    rw [List.pairwise_map]
    exact hpw.imp (fun hab => by
      rwa [updateQuantity_map_id itemId delta, updateQuantity_map_id itemId delta])
  · intro l hl
    rw [List.mem_filter] at hl
    have : 0 < l.quantity := by simpa using hl.2
    omega

/-- Helper: `removeFromOrder` preserves the order-list invariant. -/
theorem orderWF_removeFromOrder {o : List OrderLine} (hwf : OrderWF o)
    (itemId : String) : OrderWF (removeFromOrder o itemId) := by
  obtain ⟨hpw, hq⟩ := hwf
  refine ⟨List.Pairwise.filter _ hpw, ?_⟩
  intro l hl
  rw [removeFromOrder, List.mem_filter] at hl
  exact hq l hl.1

/-- Helper: the empty order satisfies the invariant. -/
theorem orderWF_nil : OrderWF [] :=
  ⟨List.Pairwise.nil, by simp⟩

/-- Helper: every order-assembly interaction preserves the invariant. -/
theorem orderWF_applyOp {o : List OrderLine} (hwf : OrderWF o) (op : OrderOp) :
    OrderWF (applyOp o op) := by
  cases op with
  | add item => exact orderWF_addToOrder hwf item
  | update itemId delta => exact orderWF_updateQuantity hwf itemId delta
  | remove itemId => exact orderWF_removeFromOrder hwf itemId
  | clear => exact orderWF_nil

/-- Helper: folding interactions from an invariant-satisfying order keeps
the invariant. -/
theorem orderWF_foldl (ops : List OrderOp) :
    ∀ o : List OrderLine, OrderWF o → OrderWF (ops.foldl applyOp o) := by
  induction ops with
  | nil => exact fun o h => h
  | cons op ops ih => exact fun o h => ih (applyOp o op) (orderWF_applyOp h op)

/-- Helper: every order list reachable from the empty order satisfies the
invariant. -/
theorem orderWF_runOps (ops : List OrderOp) : OrderWF (runOps ops) :=
  orderWF_foldl ops [] orderWF_nil

/-- C10 (counterexample to the removal clause): after adding one item, a
quantity decrement that would reach 0 leaves the order unchanged — the line
is still present with quantity 1 — instead of removing the line. -/
theorem decrement_to_zero_keeps_line :
    updateQuantity (runOps [OrderOp.add ⟨"a", "Espresso", 2⟩]) "a" (-1)
        = [⟨"a", "Espresso", 2, 1⟩] ∧
    updateQuantity (runOps [OrderOp.add ⟨"a", "Espresso", 2⟩]) "a" (-1) ≠ [] := by
  constructor <;> decide

/-- C10 (amended): for every interaction sequence from the empty order, the
order list has at most one line per menu_item_id and every quantity is ≥ 1;
`addToOrder` on an already-present item increments that line's quantity by 1
without appending a duplicate line (the length is unchanged); and a
quantity decrement on a line at quantity 1 (which would reach 0) leaves the
order unchanged — the line is kept at quantity 1, not removed and not given
a non-positive quantity. -/
theorem order_assembly_invariant :
    (∀ ops : List OrderOp, OrderWF (runOps ops)) ∧
    (∀ (ops : List OrderOp) (item : MenuItem),
      (∃ l ∈ runOps ops, l.menu_item_id = item.id) →
        (addToOrder (runOps ops) item).length = (runOps ops).length ∧
        ∀ l ∈ runOps ops, l.menu_item_id = item.id →
          ({ l with quantity := l.quantity + 1 } : OrderLine)
            ∈ addToOrder (runOps ops) item) ∧
    (∀ (ops : List OrderOp) (itemId : String),
      (∀ l ∈ runOps ops, l.menu_item_id = itemId → l.quantity = 1) →
        updateQuantity (runOps ops) itemId (-1) = runOps ops) := by
  refine ⟨orderWF_runOps, ?_, ?_⟩
  · intro ops item hex
    have hany : (runOps ops).any (fun l => decide (l.menu_item_id = item.id)) = true := by
      rw [List.any_eq_true]
      obtain ⟨l, hl, hli⟩ := hex
      exact ⟨l, hl, by simpa using hli⟩
    constructor
    · rw [addToOrder, if_pos hany, List.length_map]
    · intro l hl hli
      rw [addToOrder, if_pos hany, List.mem_map]
      exact ⟨l, hl, by simp [hli]⟩
  · intro ops itemId hall
    have hwf := orderWF_runOps ops
    rw [updateQuantity]
    have hmap : (runOps ops).map (fun o =>
        if o.menu_item_id = itemId then
          let newQty := o.quantity + (-1)
          if 0 < newQty then { o with quantity := newQty } else o
        else o) = runOps ops := by
      have hid : ∀ o ∈ runOps ops,
          (fun o =>
            if o.menu_item_id = itemId then
              let newQty := o.quantity + (-1)
              if 0 < newQty then { o with quantity := newQty } else o
            else o) o = id o := by
        intro x hx
        by_cases hxi : x.menu_item_id = itemId
        · have hx1 : x.quantity = 1 := hall x hx hxi
          simp only [hxi, if_true, hx1, id]
          norm_num
        · simp [hxi]
      rw [List.map_congr_left hid, List.map_id]
    rw [hmap]
    apply List.filter_eq_self.mpr
    intro a ha
    have := hwf.2 a ha
    simpa using by omega

/-- Witness for C10's amended theorem after a single add of item "m1". -/
theorem order_assembly_invariant_witness :
    OrderWF (runOps [OrderOp.add ⟨"m1", "Latte", 2⟩]) ∧
    ((addToOrder (runOps [OrderOp.add ⟨"m1", "Latte", 2⟩]) ⟨"m1", "Latte", 2⟩).length
        = (runOps [OrderOp.add ⟨"m1", "Latte", 2⟩]).length ∧
      ∀ l ∈ runOps [OrderOp.add ⟨"m1", "Latte", 2⟩],
        l.menu_item_id = "m1" →
          ({ l with quantity := l.quantity + 1 } : OrderLine)
            ∈ addToOrder (runOps [OrderOp.add ⟨"m1", "Latte", 2⟩]) ⟨"m1", "Latte", 2⟩) ∧
    updateQuantity (runOps [OrderOp.add ⟨"m1", "Latte", 2⟩]) "m1" (-1)
        = runOps [OrderOp.add ⟨"m1", "Latte", 2⟩] :=
  ⟨order_assembly_invariant.1 [OrderOp.add ⟨"m1", "Latte", 2⟩],
   order_assembly_invariant.2.1 [OrderOp.add ⟨"m1", "Latte", 2⟩] ⟨"m1", "Latte", 2⟩
     (by decide),
   order_assembly_invariant.2.2 [OrderOp.add ⟨"m1", "Latte", 2⟩] "m1" (by decide)⟩

end Brew
